import Mathlib

/-!
Verification of the pyUSID hdf_utils helpers (`pyUSID/io/hdf_utils/simple.py`)
and the `PeakFinder` example process (`examples/intermediate/plot_process.py`)
against their natural-language specification.

The HDF5 world is shallowly embedded: attribute values are rationals,
strings, or arrays thereof (`PVal`); HDF5 objects are datasets (shape,
dtype, attributes) or groups (attributes plus named members); Python
exceptions become `Except PyErr`.  Each Lean definition is a direct
translation of the corresponding Python function, keeping its name.
-/

namespace PyUSID

/-- Attribute / parameter values: numeric scalars (modelled as rationals),
strings, numeric arrays, string arrays, and Python's `None`. -/
inductive PVal where
  | num (q : ℚ)
  | str (s : String)
  | numArr (qs : List ℚ)
  | strArr (ss : List String)
  | null
  deriving DecidableEq, Repr

/-- An attribute set: name/value pairs in insertion order (h5py keeps keys
unique; earlier entries shadow later ones under `List.lookup`). -/
abbrev Attrs := List (String × PVal)

/-- An HDF5 object: a dataset (shape, dtype name, attributes) or a group
(attributes plus named members). -/
inductive H5Obj where
  | dset (shape : List Nat) (dtype : String) (attrs : Attrs)
  | grp (attrs : Attrs) (members : List (String × H5Obj))
  deriving Repr

/-- `isinstance(obj, h5py.Group)`. -/
def H5Obj.isGroup : H5Obj → Bool
  | .grp _ _ => true
  | .dset _ _ _ => false

/-- The attribute set of an HDF5 object (`obj.attrs`). -/
def H5Obj.attrs : H5Obj → Attrs
  | .dset _ _ a => a
  | .grp a _ => a

/-- The named members of an HDF5 object (`obj.keys()` / `obj[name]`);
datasets have none. -/
def H5Obj.members : H5Obj → List (String × H5Obj)
  | .dset _ _ _ => []
  | .grp _ m => m

/-- A main dataset together with its h5py full path name and the member
list of its parent group (in the parent's stable key-iteration order). -/
structure MainDataset where
  name : String
  parent : List (String × H5Obj)

/-- Python exceptions raised by the helpers. -/
inductive PyErr where
  | typeError
  | keyError
  | valueError
  deriving DecidableEq, Repr

/-! ## String helpers (Python `str` operations, over `List Char`) -/

/-- Python `s.split(sep)` for a one-character separator. -/
def splitOnChar (sep : Char) : List Char → List (List Char)
  | [] => [[]]
  | c :: rest =>
    if c = sep then [] :: splitOnChar sep rest
    else
      match splitOnChar sep rest with
      | [] => [[c]]
      | h :: t => (c :: h) :: t

/-- `name.split(sep)[-1]`, the last path component of an h5py object name. -/
def lastComponent (s : String) : String :=
  String.mk ((splitOnChar '/' s.data).getLastD [])

/-- Python `pat in s` (substring containment). -/
def strContainsSub (s pat : String) : Bool := decide (pat.data <:+: s.data)

/-- Python `s.startswith(pre)`. -/
def strStartsWith (s pre : String) : Bool := decide (pre.data <+: s.data)

/-- Python `s.endswith(suf)`. -/
def strEndsWith (s suf : String) : Bool := decide (suf.data <:+ s.data)

/-- Python `s.replace('-', '_')` (a one-character pattern, so a plain map). -/
def sanitizeDashes (s : String) : String :=
  String.mk (s.data.map fun c => if c = '-' then '_' else c)

/-- Python `s.strip()`: drop leading and trailing whitespace. -/
def pystrip (s : String) : String :=
  String.mk (((s.data.dropWhile Char.isWhitespace).reverse.dropWhile
      Char.isWhitespace).reverse)

/-- Recursion core of `replaceAllChars`; `fuel` only bounds the recursion
depth (any `fuel ≥ s.length` gives the replacement of every occurrence). -/
def replaceAllAux (pat : List Char) : Nat → List Char → List Char
  | _, [] => []
  | 0, s => s
  | fuel + 1, c :: rest =>
    if pat ≠ [] ∧ pat.isPrefixOf (c :: rest) = true then
      -- drop the matched occurrence: (c :: rest).drop pat.length
      replaceAllAux pat fuel (rest.drop (pat.length - 1))
    else
      c :: replaceAllAux pat fuel rest

/-- Python `s.replace(pat, '')`: remove every (leftmost-first) occurrence of
`pat`.  The callers below only use non-empty patterns; for an empty pattern
this returns `s` unchanged. -/
def replaceAllChars (pat s : List Char) : List Char :=
  replaceAllAux pat s.length s

/-- Python `int(s)` on the digit strings in scope: `some` of the decimal
value of a non-empty all-digit string, `none` (a `ValueError`) otherwise.
(`int()` also accepts surrounding whitespace and a sign; the group-name
suffixes handled here are bare digit strings.) -/
def pyint (s : List Char) : Option Nat :=
  if s ≠ [] ∧ s.all Char.isDigit then
    Option.some (s.foldl (fun n c => n * 10 + (c.toNat - 48)) 0)
  else
    Option.none

/-- The decimal digit character for `n < 10`. -/
def digitChar (n : Nat) : Char := Char.ofNat (48 + n)

/-- Recursion core of `natToDigits`; `fuel` only bounds the recursion
depth (any `fuel` with `n < 10 ^ fuel` gives the decimal digits). -/
def natToDigitsAux : Nat → Nat → List Char
  | 0, _ => []
  | fuel + 1, n =>
    if n < 10 then [digitChar n]
    else natToDigitsAux fuel (n / 10) ++ [digitChar (n % 10)]

/-- The decimal digit string of `n` (no sign, no padding). -/
def natToDigits (n : Nat) : List Char := natToDigitsAux (n + 1) n

/-- Python `'{:03d}'.format(n)`: the decimal digits of `n`, zero-padded on
the left to a width of (at least) three. -/
def pad3 (n : Nat) : String :=
  String.mk (List.replicate (3 - (natToDigits n).length) '0' ++ natToDigits n)

/-! ## `check_for_matching_attrs` (simple.py lines 762-846) -/

/-- `np.allclose` default relative tolerance (`1e-5`). -/
def npRtol : ℚ := 1 / 100000

/-- `np.allclose` default absolute tolerance (`1e-8`). -/
def npAtol : ℚ := 1 / 100000000

/-- `np.allclose(a, b)` on equal-length numeric arrays: element-wise
`|a i - b i| ≤ atol + rtol * |b i|`. -/
def allclose (a b : List ℚ) : Bool :=
  (a.zip b).all fun p => decide (|p.1 - p.2| ≤ npAtol + npRtol * |p.2|)

/-- The per-key comparison of `check_for_matching_attrs` (lines 809-842):
`oldVal` is the stored attribute, `newVal` the incoming parameter.
Arrays (`np.ndarray` stored values) demand an iterable new value of the
same size and compare with `np.allclose` (numeric) or element-wise `==`
(strings, the `TypeError` fallback, where a number/string comparison is
`False` element-wise and `np.all` of an empty list is `True`); scalars use
`np.all(new == old)`, which broadcasts when the new value is an array. -/
def valMatch (oldVal newVal : PVal) : Bool :=
  match oldVal with
  | PVal.numArr oldA =>
      match newVal with
      | PVal.numArr newA =>
          if oldA.length ≠ newA.length then false
          else allclose oldA newA
      | PVal.strArr newS =>
          if oldA.length ≠ newS.length then false
          else decide (oldA.length = 0)
      | _ => false      -- new parm not iterable unlike old parm
  | PVal.strArr oldS =>
      match newVal with
      | PVal.strArr newS =>
          if oldS.length ≠ newS.length then false
          else decide (oldS = newS)
      | PVal.numArr newA =>
          if oldS.length ≠ newA.length then false
          else decide (oldS.length = 0)
      | _ => false
  | PVal.num q =>
      match newVal with
      | PVal.num q' => decide (q' = q)
      | PVal.numArr l => l.all fun x => decide (x = q)
      | _ => false
  | PVal.str s =>
      match newVal with
      | PVal.str s' => decide (s' = s)
      | PVal.strArr l => l.all fun x => decide (x = s)
      | _ => false
  | PVal.null => false  -- HDF5 cannot store None as an attribute

/-- The key loop of `check_for_matching_attrs` (lines 790-846).  A `None`
new value is skipped; a missing attribute appends `False` and breaks; any
other key appends the per-key comparison.  The function returns
`all(tests)`, so both `break`-after-`False` and continue-after-`False`
leave the result `false`, which `&&` captures. -/
def cfmaLoop (attrs : Attrs) : Attrs → Bool
  | [] => true
  | (key, newVal) :: rest =>
    if newVal = PVal.null then cfmaLoop attrs rest
    else
      match attrs.lookup key with
      | Option.none => false
      | Option.some oldVal => valMatch oldVal newVal && cfmaLoop attrs rest

/-- `check_for_matching_attrs(h5_obj, new_parms)` (lines 762-846): compares
the attributes of `h5_obj` against `new_parms`; `new_parms=None` becomes
the empty dictionary. -/
def check_for_matching_attrs (attrs : Attrs) (new_parms : Option Attrs) : Bool :=
  cfmaLoop attrs (new_parms.getD [])

/-! ## `find_results_groups` (lines 105-133) -/

/-- The key loop of `find_results_groups`: for each key of the parent
group, keep `(key, parent[key])` when the key contains both the dataset
name and the tool name and the member is a group. -/
def frgLoop (parent : List (String × H5Obj)) (dset_name tool_name : String) :
    List String → List (String × H5Obj)
  | [] => []
  | key :: rest =>
    match parent.lookup key with
    | Option.some obj =>
        if strContainsSub key dset_name && strContainsSub key tool_name
            && obj.isGroup then
          (key, obj) :: frgLoop parent dset_name tool_name rest
        else
          frgLoop parent dset_name tool_name rest
    | Option.none => frgLoop parent dset_name tool_name rest

/-- `find_results_groups(h5_main, tool_name)` (lines 105-133): the groups
of `h5_main`'s parent whose key contains both the last path component of
`h5_main.name` and `tool_name`, in key-iteration order.  Each returned
group is the pair of its key and its contents. -/
def find_results_groups (h5_main : MainDataset) (tool_name : String) :
    List (String × H5Obj) :=
  frgLoop h5_main.parent (lastComponent h5_main.name) tool_name
    (h5_main.parent.map Prod.fst)

/-! ## `check_for_old` (lines 425-484) -/

/-- The candidate loop of `check_for_old` (lines 466-482): with a
`target_dset` the attributes of that member are compared (candidates
lacking it are skipped with `continue`); otherwise the group's own
attributes are compared. -/
def cfoLoop (parms : Attrs) (target_dset : Option String) :
    List (String × H5Obj) → List (String × H5Obj)
  | [] => []
  | (key, group) :: rest =>
    match target_dset with
    | Option.some t =>
        if (group.members.map Prod.fst).contains t then
          match group.members.lookup t with
          | Option.some o =>
              if check_for_matching_attrs o.attrs (Option.some parms) then
                (key, group) :: cfoLoop parms target_dset rest
              else cfoLoop parms target_dset rest
          | Option.none => cfoLoop parms target_dset rest
        else cfoLoop parms target_dset rest
    | Option.none =>
        if check_for_matching_attrs group.attrs (Option.some parms) then
          (key, group) :: cfoLoop parms target_dset rest
        else cfoLoop parms target_dset rest

/-- `check_for_old(h5_base, tool_name, new_parms, target_dset)` (lines
425-484): the candidate groups from `find_results_groups` whose stored
attributes match `new_parms`; `new_parms=None` becomes the empty
dictionary. -/
def check_for_old (h5_base : MainDataset) (tool_name : String)
    (new_parms : Option Attrs) (target_dset : Option String) :
    List (String × H5Obj) :=
  cfoLoop (new_parms.getD []) target_dset (find_results_groups h5_base tool_name)

/-! ## `get_source_dataset` (lines 487-519) -/

/-- `get_source_dataset(h5_group)` (lines 487-519), with the group given
as its parent's member list plus its name within the parent (the value of
`h5_group.name.split('/')[-1]`).  Splits the name on `'-'`, requiring
exactly two parts, and returns the parent member named by the first part,
which must be a dataset. -/
def get_source_dataset (parent : List (String × H5Obj)) (group_name : String) :
    Except PyErr H5Obj :=
  let name_split := splitOnChar '-' group_name.data
  if name_split.length ≠ 2 then Except.error PyErr.valueError
  else
    match parent.lookup (String.mk (name_split.headD [])) with
    | Option.some (H5Obj.dset sh dt a) => Except.ok (H5Obj.dset sh dt a)
    | Option.some _ => Except.error PyErr.valueError  -- not a dataset
    | Option.none => Except.error PyErr.keyError      -- no such member

/-! ## `assign_group_index` (lines 522-567) -/

/-- `base_name` with a `'_'` appended unless already present
(lines 549-550). -/
def underscored (base_name : String) : String :=
  if strEndsWith base_name "_" then base_name else base_name ++ "_"

/-- The index-collection loop of `assign_group_index` (lines 556-559): for
each key naming a group that starts with the base name, parse
`int(item_name.replace(base_name, ''))`, raising `ValueError` on a
non-numeric remainder. -/
def agiLoop (members : List (String × H5Obj)) (bn : String) :
    List String → Except PyErr (List Nat)
  | [] => Except.ok []
  | item :: rest =>
    let isGrp := match members.lookup item with
                 | Option.some o => o.isGroup
                 | Option.none => false
    if isGrp && strStartsWith item bn then
      match pyint (replaceAllChars bn.data item.data) with
      | Option.none => Except.error PyErr.valueError
      | Option.some n =>
          match agiLoop members bn rest with
          | Except.ok l => Except.ok (n :: l)
          | Except.error e => Except.error e
    else agiLoop members bn rest

/-- The maximum of a list of naturals (`np.sort(...)[-1]` of a non-empty
list is its maximum). -/
def maxNat (l : List Nat) : Nat := l.foldl Nat.max 0

/-- `assign_group_index(h5_parent_group, base_name)` (lines 522-567):
appends to the (underscore-terminated) base name the zero-padded decimal
successor of the largest index among existing groups with that prefix
(`000` when there is none). -/
def assign_group_index (members : List (String × H5Obj)) (base_name : String) :
    Except PyErr String :=
  if base_name.data.length = 0 then Except.error PyErr.valueError
  else
    let bn := underscored base_name
    match agiLoop members bn (members.map Prod.fst) with
    | Except.error e => Except.error e
    | Except.ok previous_indices =>
        let index := if previous_indices = [] then 0
                     else maxNat previous_indices + 1
        Except.ok (bn ++ pad3 index)

/-! ## `create_results_group` (lines 599-643) -/

/-- `create_results_group(h5_main, tool_name)` (lines 599-643): strips the
tool name (raising `ValueError` when blank), replaces `'-'` with `'_'`,
builds the base name `'<dataset name>-<tool name>_'`, indexes it with
`assign_group_index`, and creates the group under the parent via
`h5_main.parent.create_group(group_name)` (line 632) — which raises
`ValueError` when a link of that name already exists (this can happen
despite the indexing, since `assign_group_index` counts only group
members).  Returns the new group's name and the updated parent member
list.  The book-keeping attributes (timestamps, machine id) and the
`source_000` object reference written by `write_book_keeping_attrs` live
outside `src` and carry no information the claims touch; the group is
created with the `tool` and `num_source_dsets` attributes of line 638. -/
def create_results_group (h5_main : MainDataset) (tool_name : String) :
    Except PyErr (String × List (String × H5Obj)) :=
  let tool := pystrip tool_name
  if tool.data.length < 1 then Except.error PyErr.valueError
  else
    let tool := sanitizeDashes tool
    let base := lastComponent h5_main.name ++ "-" ++ tool ++ "_"
    match assign_group_index h5_main.parent base with
    | Except.error e => Except.error e
    | Except.ok group_name =>
        if (h5_main.parent.map Prod.fst).contains group_name then
          Except.error PyErr.valueError  -- create_group: name already exists
        else
          Except.ok (group_name,
            h5_main.parent ++
              [(group_name,
                H5Obj.grp [("tool", PVal.str tool),
                           ("num_source_dsets", PVal.num 1)] [])])

/-! ## `create_empty_dataset` (lines 669-759) -/

/-- What the creation step of `create_empty_dataset` did with a
pre-existing member of the same name. -/
inductive CreateOutcome where
  | created               -- no member of that name existed
  | reusedExisting        -- an identically shaped/typed dataset was returned
  | deletedAndRecreated   -- the old dataset was deleted and replaced
  deriving DecidableEq, Repr

/-- The name handling and creation step of `create_empty_dataset` (lines
710-746): the dataset name is stripped (`ValueError` when empty) and its
`'-'` replaced by `'_'`; if a member of that name exists and is a dataset
it is reused when shape and dtype match and deleted-and-recreated
otherwise, and if it is not a dataset a `KeyError` is raised.  The
subsequent attribute copying (lines 749-757) does not affect this
outcome. -/
def create_empty_dataset (src_shape : List Nat) (dtype : String)
    (dset_name : String) (group : List (String × H5Obj)) :
    Except PyErr CreateOutcome :=
  let name := pystrip dset_name
  if name.data.length = 0 then Except.error PyErr.valueError
  else
    let name := sanitizeDashes name
    match group.lookup name with
    | Option.some (H5Obj.dset sh dt _) =>
        if sh ≠ src_shape ∨ dt ≠ dtype then
          Except.ok CreateOutcome.deletedAndRecreated
        else
          Except.ok CreateOutcome.reusedExisting
    | Option.some _ => Except.error PyErr.keyError
    | Option.none => Except.ok CreateOutcome.created

/-! ## `write_ind_val_dsets` existence check (lines 897-911) -/

/-- The base-name resolution of `write_ind_val_dsets` (lines 897-905):
the supplied prefix with `'_'` appended when missing, defaulting to
`Position_` / `Spectroscopic_`. -/
def ivBase (is_spectral : Bool) (base_name : Option String) : String :=
  match base_name with
  | Option.some b => if strEndsWith b "_" then b else b ++ "_"
  | Option.none => if is_spectral then "Spectroscopic_" else "Position_"

/-- The dataset-existence check of `write_ind_val_dsets` (lines 907-911):
raise `KeyError` when an `Indices` or `Values` dataset of the resolved
prefix already exists in the parent group. -/
def write_ind_val_dsets_precheck (members : List (String × H5Obj))
    (is_spectral : Bool) (base_name : Option String) : Except PyErr String :=
  let bn := ivBase is_spectral base_name
  if (members.map Prod.fst).contains (bn ++ "Indices")
      || (members.map Prod.fst).contains (bn ++ "Values") then
    Except.error PyErr.keyError
  else Except.ok bn

/-! ## `copy_attributes` (lines 218-282) -/

/-- `dest.attrs[key] = v`: overwrite an existing attribute or append a new
one. -/
def attrSet (attrs : Attrs) (key : String) (v : PVal) : Attrs :=
  if (attrs.map Prod.fst).contains key then
    attrs.map fun kv => if kv.1 = key then (key, v) else kv
  else attrs ++ [(key, v)]

/-- The attribute-copying loop of `copy_attributes` (lines 238-274) on the
reference-free attribute values of this model: every source attribute is
written onto the destination (`clean_string_att` only rewrites byte
strings and is the identity on these values). -/
def copyAttrsLoop (source_attrs dest_attrs : Attrs) : Attrs :=
  source_attrs.foldl (fun d kv => attrSet d kv.1 kv.2) dest_attrs

/-- `copy_attributes(source, dest, skip_refs)` (lines 218-282).  After the
attribute loop, when `skip_refs` is false the function calls
`copy_region_refs(source, dest)` inside `try: ... except TypeError:
print(...)` — a `TypeError` raised there is caught and discarded (only a
message is printed), while any other exception propagates.  The outcome of
that call is passed in as `region_copy`. -/
def copy_attributes (source_attrs dest_attrs : Attrs) (skip_refs : Bool)
    (region_copy : Except PyErr Unit) : Except PyErr Attrs :=
  let dest := copyAttrsLoop source_attrs dest_attrs
  if skip_refs then Except.ok dest
  else
    match region_copy with
    | Except.ok _ => Except.ok dest
    | Except.error PyErr.typeError => Except.ok dest  -- except TypeError: print
    | Except.error e => Except.error e

/-! ## `PeakFinder` (plot_process.py lines 238-353) -/

/-- `np.argmin`: the index of the first minimum of a list (the lists it is
applied to below are non-empty). -/
def argminIdx : List Nat → Nat
  | [] => 0
  | [_] => 0
  | x :: y :: rest =>
      let j := argminIdx (y :: rest)
      if (y :: rest).getD j 0 < x then j + 1 else 0

/-- `PeakFinder._map_function(spectra)` (lines 316-353), parametrised by
`find_all_peaks` (defined in `supporting_docs/peak_finding.py`, outside
this repository), which is called as
`find_all_peaks(spectra, [20, 60], num_steps=30)` and returns peak
indices.  With no peak the centre index is used; with several, the one
closest to the centre; indexing past the spectra (`IndexError`) is
`Option.none`.  The function is a `@staticmethod`: it takes no engine
state, only its arguments. -/
def map_function (find_all_peaks : List ℚ → List ℚ → Nat → List Nat)
    (spectra : List ℚ) : Option ℚ :=
  let peak_inds := find_all_peaks spectra [20, 60] 30
  let central_ind := spectra.length / 2
  let val : Nat :=
    if peak_inds.length = 0 then central_ind
    else if peak_inds.length > 1 then
      let dist := peak_inds.map fun i =>
        (Int.ofNat i - Int.ofNat central_ind).natAbs
      peak_inds.getD (argminIdx dist) 0
    else peak_inds.headD 0
  (spectra.get? val).map fun x => |x|

/-- The mutable surroundings a `Process` object can see: the rows of
`h5_main` and the rest of the HDF5 file (result sinks included). -/
structure ProcessState where
  h5_main : List (List ℚ)
  h5_file : List (String × H5Obj)

/-- `PeakFinder.test(pixel_ind)` (lines 255-267): read the one spectra at
`pixel_ind` from `h5_main` and return `_map_function` of it.  The state is
threaded explicitly to make writes observable: the body performs none, so
the state is returned unchanged (an out-of-range index raises, modelled as
`Option.none`, again without touching the state). -/
def PeakFinder.test (find_all_peaks : List ℚ → List ℚ → Nat → List Nat)
    (st : ProcessState) (pixel_ind : Nat) : Option ℚ × ProcessState :=
  match st.h5_main.get? pixel_ind with
  | Option.none => (Option.none, st)
  | Option.some spectra => (map_function find_all_peaks spectra, st)

/-! ## Specification-side predicates

These definitions follow the wording of the claims, to be compared with
the code-derived functions above. -/

/-- The claim's reading of parameter matching: for every key of the
parameter dictionary whose value is not `None`, an attribute of that name
exists and its stored value matches the new value under the per-key
comparison `valMatch`. -/
def attrsMatchSpec (attrs parms : Attrs) : Prop :=
  ∀ kv ∈ parms, kv.2 ≠ PVal.null →
    ∃ old, attrs.lookup kv.1 = Option.some old ∧ valMatch old kv.2 = true

/-- The claim's reading of candidate selection in `check_for_old`: a
candidate group matches when its own attributes match, or — when a target
dataset name is supplied — when it has a member of that name whose
attributes match (candidates lacking the member never match). -/
def oldCandidateMatches (parms : Attrs) (target_dset : Option String)
    (kg : String × H5Obj) : Bool :=
  match target_dset with
  | Option.none => check_for_matching_attrs kg.2.attrs (Option.some parms)
  | Option.some t =>
      match kg.2.members.lookup t with
      | Option.some o => check_for_matching_attrs o.attrs (Option.some parms)
      | Option.none => false

/-- The indices carried by the member groups whose name starts with the
(underscore-terminated) base name, in member order: the decimal value of
each remaining suffix. -/
def groupIdxVals (members : List (String × H5Obj)) (bn : String) : List Nat :=
  members.filterMap fun kv =>
    if kv.2.isGroup && strStartsWith kv.1 bn then
      pyint (kv.1.data.drop bn.data.length)
    else Option.none

/-! ## Helper lemmas -/

theorem data_append (s t : String) : (s ++ t).data = s.data ++ t.data := by
  cases s; cases t; rfl

theorem mk_data (s : String) : String.mk s.data = s := rfl

theorem cfmaLoop_eq_spec (attrs : Attrs) (parms : Attrs) :
    cfmaLoop attrs parms = true ↔ attrsMatchSpec attrs parms := by
  induction parms with
  | nil => simp [cfmaLoop, attrsMatchSpec]
  | cons kv rest ih =>
    obtain ⟨key, v⟩ := kv
    by_cases hv : v = PVal.null
    · subst hv
      simpa [cfmaLoop, attrsMatchSpec, List.forall_mem_cons] using ih
    · cases hlk : attrs.lookup key with
      | none =>
        simp only [cfmaLoop, if_neg hv, hlk]
        simp only [attrsMatchSpec, List.forall_mem_cons]
        constructor
        · intro h; cases h
        · rintro ⟨h1, -⟩
          obtain ⟨old, hold, -⟩ := h1 hv
          rw [hlk] at hold; cases hold
      | some old =>
        simp only [cfmaLoop, if_neg hv, hlk, Bool.and_eq_true]
        simp only [attrsMatchSpec, List.forall_mem_cons] at ih ⊢
        constructor
        · rintro ⟨hm, hrest⟩
          exact ⟨fun _ => ⟨old, hlk, hm⟩, (ih.mp hrest)⟩
        · rintro ⟨h1, hrest⟩
          obtain ⟨old', hold', hm'⟩ := h1 hv
          rw [hlk] at hold'
          injection hold' with he
          subst he
          exact ⟨hm', ih.mpr hrest⟩

theorem lookup_some_mem {β : Type} :
    ∀ (l : List (String × β)) (t : String) (v : β),
      l.lookup t = Option.some v → (t, v) ∈ l := by
  intro l
  induction l with
  | nil => intro t v h; cases h
  | cons kv rest ih =>
    obtain ⟨k, w⟩ := kv
    intro t v h
    by_cases he : (t == k) = true
    · rw [beq_iff_eq] at he
      subst he
      simp only [List.lookup, beq_self_eq_true] at h
      injection h with hw
      subst hw
      exact List.mem_cons_self _ _
    · simp only [List.lookup, Bool.not_eq_true] at he h
      rw [he] at h
      exact List.mem_cons_of_mem _ (ih t v h)

theorem lookup_none_not_mem {β : Type} :
    ∀ (l : List (String × β)) (t : String),
      l.lookup t = Option.none → t ∉ l.map Prod.fst := by
  intro l
  induction l with
  | nil => intro t _ hm; cases hm
  | cons kv rest ih =>
    obtain ⟨k, w⟩ := kv
    intro t h hm
    by_cases he : (t == k) = true
    · simp only [List.lookup, he] at h
      exact Option.noConfusion h
    · simp only [List.lookup, Bool.not_eq_true] at he h
      rw [he] at h
      rcases List.mem_cons.mp hm with h1 | h2
      · exact absurd (beq_iff_eq.mpr h1) (by rw [he]; exact Bool.false_ne_true)
      · exact ih t h h2

theorem cfoLoop_eq_filter (parms : Attrs) (target : Option String)
    (l : List (String × H5Obj)) :
    cfoLoop parms target l = l.filter (oldCandidateMatches parms target) := by
  induction l with
  | nil => rfl
  | cons kg rest ih =>
    obtain ⟨key, g⟩ := kg
    cases target with
    | none =>
      by_cases h : check_for_matching_attrs g.attrs (Option.some parms) <;>
        simp [cfoLoop, oldCandidateMatches, h, ih]
    | some t =>
      cases hl : g.members.lookup t with
      | none =>
        have hc : t ∉ g.members.map Prod.fst := lookup_none_not_mem _ _ hl
        simp [cfoLoop, oldCandidateMatches, hl, hc, ih]
      | some o =>
        have hc : t ∈ g.members.map Prod.fst :=
          List.mem_map.mpr ⟨(t, o), lookup_some_mem _ _ _ hl, rfl⟩
        by_cases h : check_for_matching_attrs o.attrs (Option.some parms) <;>
          simp [cfoLoop, oldCandidateMatches, hl, hc, h, ih]

theorem lookup_self_of_nodup {β : Type} :
    ∀ (l : List (String × β)), (l.map Prod.fst).Nodup →
      ∀ kv ∈ l, l.lookup kv.1 = Option.some kv.2 := by
  intro l
  induction l with
  | nil => intro _ kv hm; cases hm
  | cons hd tl ih =>
    obtain ⟨k, v⟩ := hd
    intro hnd kv hm
    rw [List.map_cons, List.nodup_cons] at hnd
    cases hm with
    | head => simp [List.lookup]
    | tail _ hm' =>
      have hne : ¬ (kv.1 == k) = true := by
        intro he
        exact hnd.1 (by
          rw [beq_iff_eq] at he
          rw [← he]
          exact List.mem_map.mpr ⟨kv, hm', rfl⟩)
      simp only [List.lookup, Bool.not_eq_true] at hne ⊢
      rw [hne]
      exact ih hnd.2 kv hm'

theorem frgLoop_eq_filter (parent : List (String × H5Obj)) (dn tool : String) :
    ∀ (l : List (String × H5Obj)),
      (∀ kv ∈ l, parent.lookup kv.1 = Option.some kv.2) →
      frgLoop parent dn tool (l.map Prod.fst) =
        l.filter fun kv =>
          strContainsSub kv.1 dn && strContainsSub kv.1 tool && kv.2.isGroup := by
  intro l
  induction l with
  | nil => intro _; rfl
  | cons kv rest ih =>
    obtain ⟨key, obj⟩ := kv
    intro h
    have hk : parent.lookup key = Option.some obj := h (key, obj) (List.mem_cons_self _ _)
    have hrest := fun kv hm => h kv (List.mem_cons_of_mem _ hm)
    by_cases hcond : (strContainsSub key dn && strContainsSub key tool
        && obj.isGroup) = true <;>
      simp [frgLoop, hk, hcond, ih hrest]

theorem cfoLoop_empty_parms_id (target : Option String)
    (hl : target = Option.none) :
    ∀ (l : List (String × H5Obj)), cfoLoop [] target l = l := by
  subst hl
  intro l
  induction l with
  | nil => rfl
  | cons kg rest ih =>
    obtain ⟨k, g⟩ := kg
    simpa [cfoLoop, check_for_matching_attrs, cfmaLoop] using ih

theorem string_eq_empty_iff (s : String) : s = "" ↔ s.data = [] := by
  constructor
  · intro h; subst h; rfl
  · intro h; cases s; simp_all

theorem digitChar_isDigit (n : Nat) (h : n < 10) : (digitChar n).isDigit = true := by
  interval_cases n <;> decide

theorem digitChar_toNat (n : Nat) (h : n < 10) : (digitChar n).toNat = 48 + n := by
  interval_cases n <;> decide

theorem natToDigitsAux_digits :
    ∀ (fuel n : Nat), ∀ c ∈ natToDigitsAux fuel n, c.isDigit = true := by
  intro fuel
  induction fuel with
  | zero => intro n c hc; cases hc
  | succ fuel ih =>
    intro n c hc
    rw [natToDigitsAux] at hc
    by_cases h : n < 10
    · rw [if_pos h] at hc
      rw [List.mem_singleton] at hc
      subst hc
      exact digitChar_isDigit n h
    · rw [if_neg h] at hc
      rcases List.mem_append.mp hc with h1 | h2
      · exact ih _ _ h1
      · rw [List.mem_singleton] at h2
        subst h2
        exact digitChar_isDigit _ (Nat.mod_lt _ (by norm_num))

theorem natToDigits_digits (n : Nat) : ∀ c ∈ natToDigits n, c.isDigit = true :=
  fun c hc => natToDigitsAux_digits (n + 1) n c hc

theorem natToDigits_ne_nil (n : Nat) : natToDigits n ≠ [] := by
  rw [natToDigits, natToDigitsAux]
  by_cases h : n < 10 <;> simp [h]

theorem pad3_data (n : Nat) :
    (pad3 n).data =
      List.replicate (3 - (natToDigits n).length) '0' ++ natToDigits n := rfl

theorem pad3_digits (n : Nat) : ∀ c ∈ (pad3 n).data, c.isDigit = true := by
  intro c hc
  rw [pad3_data] at hc
  rcases List.mem_append.mp hc with h | h
  · rw [List.eq_of_mem_replicate h]; decide
  · exact natToDigits_digits n c h

theorem pad3_ne_nil (n : Nat) : (pad3 n).data ≠ [] := by
  rw [pad3_data]
  intro h
  exact natToDigits_ne_nil n (List.append_eq_nil.mp h).2

theorem lt_ten_pow_succ (n : Nat) : n < 10 ^ (n + 1) :=
  calc n < 2 ^ n := Nat.lt_two_pow n
  _ ≤ 10 ^ n := Nat.pow_le_pow_left (by norm_num) n
  _ ≤ 10 ^ (n + 1) := Nat.pow_le_pow_right (by norm_num) (by omega)

theorem foldl_natToDigitsAux :
    ∀ (fuel n a : Nat), n < 10 ^ fuel →
      (natToDigitsAux fuel n).foldl (fun m c => m * 10 + (c.toNat - 48)) a =
        a * 10 ^ (natToDigitsAux fuel n).length + n := by
  intro fuel
  induction fuel with
  | zero =>
    intro n a h
    have hn : n = 0 := by simpa using h
    subst hn
    simp [natToDigitsAux]
  | succ fuel ih =>
    intro n a h
    rw [natToDigitsAux]
    by_cases h10 : n < 10
    · rw [if_pos h10]
      simp only [List.foldl_cons, List.foldl_nil, List.length_singleton,
        digitChar_toNat n h10, pow_one]
      omega
    · rw [if_neg h10]
      have hdiv : n / 10 < 10 ^ fuel := by
        rw [Nat.div_lt_iff_lt_mul (by norm_num)]
        calc n < 10 ^ (fuel + 1) := h
        _ = 10 ^ fuel * 10 := by ring
      rw [List.foldl_append, ih (n / 10) a hdiv]
      simp only [List.foldl_cons, List.foldl_nil, List.length_append,
        List.length_singleton,
        digitChar_toNat _ (Nat.mod_lt n (by norm_num)), Nat.add_sub_cancel_left]
      rw [pow_succ, Nat.add_mul, ← Nat.mul_assoc, Nat.add_assoc]
      congr 1
      omega

theorem foldl_replicate_zero (m : Nat) :
    (List.replicate m '0').foldl (fun n c => n * 10 + (c.toNat - 48)) 0 = 0 := by
  induction m with
  | zero => rfl
  | succ m ih => simpa [List.replicate_succ] using ih

theorem pyint_pad3 (n : Nat) : pyint (pad3 n).data = Option.some n := by
  rw [pyint,
    if_pos ⟨pad3_ne_nil n, List.all_eq_true.mpr (pad3_digits n)⟩, pad3_data,
    List.foldl_append, foldl_replicate_zero, natToDigits,
    foldl_natToDigitsAux (n + 1) n 0 (lt_ten_pow_succ n)]
  simp

theorem replaceAllAux_all_digit (pat : List Char) (c0 : Char) (hc0 : c0 ∈ pat)
    (hd : c0.isDigit = false) :
    ∀ (fuel : Nat) (t : List Char), t.all Char.isDigit = true →
      replaceAllAux pat fuel t = t := by
  intro fuel
  induction fuel with
  | zero => intro t _; cases t <;> rfl
  | succ fuel ih =>
    intro t hdig
    match t with
    | [] => rfl
    | c :: rest =>
      rw [replaceAllAux]
      have hpre : ¬ (pat ≠ [] ∧ pat.isPrefixOf (c :: rest) = true) := by
        rintro ⟨-, hp⟩
        rw [List.isPrefixOf_iff_prefix] at hp
        have hmem := hp.subset hc0
        have := List.all_eq_true.mp hdig c0 hmem
        rw [hd] at this
        cases this
      rw [if_neg hpre]
      have hrest : rest.all Char.isDigit = true := by
        rw [List.all_cons, Bool.and_eq_true] at hdig
        exact hdig.2
      rw [ih rest hrest]

theorem replaceAll_strip (pat t : List Char) (c0 : Char) (hc0 : c0 ∈ pat)
    (hd : c0.isDigit = false) (hdig : t.all Char.isDigit = true) :
    replaceAllChars pat (pat ++ t) = t := by
  have hpat : pat ≠ [] := by rintro rfl; cases hc0
  obtain ⟨p, pat', rfl⟩ : ∃ p pat', pat = p :: pat' := by
    cases pat with
    | nil => cases hc0
    | cons p pat' => exact ⟨p, pat', rfl⟩
  rw [replaceAllChars,
    show ((p :: pat') ++ t) = p :: (pat' ++ t) from rfl,
    show (p :: (pat' ++ t)).length = (pat' ++ t).length + 1 from rfl,
    replaceAllAux,
    if_pos ⟨hpat, List.isPrefixOf_iff_prefix.mpr (List.prefix_append _ _)⟩,
    show (p :: pat').length - 1 = pat'.length from by simp,
    List.drop_left]
  exact replaceAllAux_all_digit _ c0 hc0 hd _ t hdig

theorem data_of_startsWith (s pre : String) (h : strStartsWith s pre = true) :
    s.data = pre.data ++ s.data.drop pre.data.length := by
  rw [strStartsWith, decide_eq_true_eq] at h
  conv_lhs => rw [← List.take_append_drop pre.data.length s.data]
  rw [(List.prefix_iff_eq_take.mp h).symm]

theorem underscored_endsWith (b : String) :
    strEndsWith (underscored b) "_" = true := by
  rw [underscored]
  by_cases h : strEndsWith b "_" = true
  · rw [if_pos h]; exact h
  · rw [if_neg h, strEndsWith, decide_eq_true_eq, data_append]
    exact List.suffix_append _ _

theorem underscore_mem_underscored (b : String) :
    '_' ∈ (underscored b).data := by
  have h := underscored_endsWith b
  rw [strEndsWith, decide_eq_true_eq] at h
  exact h.subset (by decide)

theorem agiLoop_ok (members : List (String × H5Obj)) (bn : String)
    (hbn : '_' ∈ bn.data) :
    ∀ (l : List (String × H5Obj)),
      (∀ kv ∈ l, members.lookup kv.1 = Option.some kv.2) →
      (∀ kv ∈ l, kv.2.isGroup = true → strStartsWith kv.1 bn = true →
        kv.1.data.drop bn.data.length ≠ [] ∧
          (kv.1.data.drop bn.data.length).all Char.isDigit = true) →
      agiLoop members bn (l.map Prod.fst) = Except.ok (groupIdxVals l bn) := by
  intro l
  induction l with
  | nil => intro _ _; rfl
  | cons kv rest ih =>
    obtain ⟨k, o⟩ := kv
    intro hlk hdig
    have hk : members.lookup k = Option.some o :=
      hlk (k, o) (List.mem_cons_self _ _)
    have hlk' := fun kv hm => hlk kv (List.mem_cons_of_mem _ hm)
    have hdig' := fun kv hm => hdig kv (List.mem_cons_of_mem _ hm)
    have hrec := ih hlk' hdig'
    rw [List.map_cons, agiLoop, hk, groupIdxVals, List.filterMap_cons]
    by_cases hcond : (o.isGroup && strStartsWith k bn) = true
    · have hsplit : o.isGroup = true ∧ strStartsWith k bn = true := by
        rw [← Bool.and_eq_true]; exact hcond
      obtain ⟨hne, hall⟩ :=
        hdig (k, o) (List.mem_cons_self _ _) hsplit.1 hsplit.2
      have hrepl : replaceAllChars bn.data k.data =
          k.data.drop bn.data.length := by
        conv_lhs => rw [data_of_startsWith k bn hsplit.2]
        exact replaceAll_strip _ _ '_' hbn (by decide) hall
      have hpy : pyint (k.data.drop bn.length) =
          Option.some ((k.data.drop bn.length).foldl
            (fun n c => n * 10 + (c.toNat - 48)) 0) := by
        rw [pyint, if_pos ⟨hne, hall⟩]
      simp [hcond, hrepl, hpy, hrec, groupIdxVals]
    · have hcond' : (o.isGroup && strStartsWith k bn) = false := by
        rw [← Bool.not_eq_true]; exact hcond
      simp [hcond', hrec, groupIdxVals]

theorem le_foldl_max : ∀ (l : List Nat) (a : Nat), a ≤ l.foldl Nat.max a := by
  intro l
  induction l with
  | nil => intro a; exact Nat.le_refl a
  | cons x xs ih =>
    intro a
    exact Nat.le_trans (Nat.le_max_left a x) (ih (Nat.max a x))

theorem mem_le_foldl_max :
    ∀ (l : List Nat) (a x : Nat), x ∈ l → x ≤ l.foldl Nat.max a := by
  intro l
  induction l with
  | nil => intro a x hx; cases hx
  | cons y ys ih =>
    intro a x hx
    rcases List.mem_cons.mp hx with rfl | h
    · exact Nat.le_trans (Nat.le_max_right a x) (le_foldl_max ys (Nat.max a x))
    · exact ih _ x h

theorem le_maxNat (l : List Nat) (x : Nat) (h : x ∈ l) : x ≤ maxNat l :=
  mem_le_foldl_max l 0 x h

theorem sanitize_no_dash (s : String) : '-' ∉ (sanitizeDashes s).data := by
  intro h
  rcases List.mem_map.mp h with ⟨c, -, hc⟩
  by_cases h' : c = '-'
  · rw [if_pos h'] at hc
    exact absurd hc (by decide)
  · rw [if_neg h'] at hc
    exact h' hc

theorem pad3_no_dash (n : Nat) : '-' ∉ (pad3 n).data := fun h =>
  absurd (pad3_digits n '-' h) (by decide)

theorem splitOnChar_no_sep (sep : Char) :
    ∀ (b : List Char), sep ∉ b → splitOnChar sep b = [b] := by
  intro b
  induction b with
  | nil => intro _; rfl
  | cons c rest ih =>
    intro h
    have hc : ¬ c = sep := fun he => h (by rw [he]; exact List.mem_cons_self _ _)
    rw [splitOnChar, if_neg hc, ih (fun hm => h (List.mem_cons_of_mem _ hm))]

theorem splitOnChar_append (sep : Char) :
    ∀ (a b : List Char), sep ∉ a → sep ∉ b →
      splitOnChar sep (a ++ sep :: b) = [a, b] := by
  intro a
  induction a with
  | nil =>
    intro b _ hb
    rw [List.nil_append, splitOnChar, if_pos rfl, splitOnChar_no_sep sep b hb]
  | cons c a' ih =>
    intro b ha hb
    have hc : ¬ c = sep := fun he => ha (by rw [he]; exact List.mem_cons_self _ _)
    rw [List.cons_append, splitOnChar, if_neg hc,
      ih b (fun hm => ha (List.mem_cons_of_mem _ hm)) hb]

theorem lookup_append_some {β : Type} :
    ∀ (l1 l2 : List (String × β)) (k : String) (v : β),
      l1.lookup k = Option.some v → (l1 ++ l2).lookup k = Option.some v := by
  intro l1 l2 k v
  induction l1 with
  | nil => intro h; cases h
  | cons kv rest ih =>
    obtain ⟨k', w⟩ := kv
    intro h
    rw [List.cons_append]
    by_cases he : (k == k') = true
    · simp only [List.lookup, he] at h ⊢
      exact h
    · rw [Bool.not_eq_true] at he
      simp only [List.lookup, he] at h ⊢
      exact ih h

theorem underscored_of_endsWith (b : String) (h : strEndsWith b "_" = true) :
    underscored b = b := by rw [underscored, if_pos h]

theorem endsWith_underscore_append (x : String) :
    strEndsWith (x ++ "_") "_" = true := by
  rw [strEndsWith, decide_eq_true_eq, data_append]
  exact List.suffix_append _ _

/-- The full behaviour of `assign_group_index` when every existing member
group with the underscore-terminated base-name prefix carries a purely
numeric suffix: the result appends `pad3` of an index strictly larger
than every existing suffix value (`0` when there is none), a name no
member group carries. -/
theorem assign_group_index_spec :
    ∀ (members : List (String × H5Obj)) (base_name : String),
      base_name ≠ "" →
      (members.map Prod.fst).Nodup →
      (∀ kv ∈ members, kv.2.isGroup = true →
          strStartsWith kv.1 (underscored base_name) = true →
          kv.1.data.drop (underscored base_name).data.length ≠ [] ∧
            (kv.1.data.drop
                (underscored base_name).data.length).all Char.isDigit = true) →
      ∃ idx,
        assign_group_index members base_name =
          Except.ok (underscored base_name ++ pad3 idx) ∧
        (∀ kv ∈ members, kv.2.isGroup = true →
            strStartsWith kv.1 (underscored base_name) = true →
            ∀ k, pyint (kv.1.data.drop (underscored base_name).data.length) =
              Option.some k → k < idx) ∧
        ((∀ kv ∈ members, kv.2.isGroup = true →
            strStartsWith kv.1 (underscored base_name) = false) → idx = 0) ∧
        (∀ kv ∈ members, kv.2.isGroup = true →
            kv.1 ≠ underscored base_name ++ pad3 idx) := by
  intro members base_name hbn hnodup hdig
  set bn := underscored base_name with hbndef
  have hmem : '_' ∈ bn.data := underscore_mem_underscored base_name
  have hloop := agiLoop_ok members bn hmem members
    (lookup_self_of_nodup members hnodup) hdig
  set L := groupIdxVals members bn with hL
  set idx := if L = [] then 0 else maxNat L + 1 with hidx
  have hlen : ¬ base_name.data.length = 0 := fun h =>
    hbn ((string_eq_empty_iff base_name).mpr (List.eq_nil_of_length_eq_zero h))
  have hassign : assign_group_index members base_name =
      Except.ok (bn ++ pad3 idx) := by
    rw [assign_group_index, if_neg hlen, ← hbndef]
    simp only [hloop]
  have hbound : ∀ kv ∈ members, kv.2.isGroup = true →
      strStartsWith kv.1 bn = true →
      ∀ k, pyint (kv.1.data.drop bn.data.length) = Option.some k → k < idx := by
    intro kv hm hg hs k hpk
    have hkL : k ∈ L := by
      rw [hL, groupIdxVals]
      refine List.mem_filterMap.mpr ⟨kv, hm, ?_⟩
      rw [hg, hs]
      simpa using hpk
    rw [hidx, if_neg (List.ne_nil_of_mem hkL)]
    exact Nat.lt_succ_of_le (le_maxNat L k hkL)
  refine ⟨idx, hassign, hbound, ?_, ?_⟩
  · intro hnone
    rw [hidx, if_pos ?_]
    rw [hL, groupIdxVals]
    refine List.filterMap_eq_nil_iff.mpr fun kv hm => ?_
    by_cases hg : kv.2.isGroup = true
    · rw [hg, hnone kv hm hg]
      rfl
    · rw [Bool.not_eq_true] at hg
      rw [hg]
      rfl
  · intro kv hm hg heq
    have hssw : strStartsWith kv.1 bn = true := by
      rw [heq, strStartsWith, decide_eq_true_eq, data_append]
      exact List.prefix_append _ _
    have hdrop : kv.1.data.drop bn.data.length = (pad3 idx).data := by
      rw [heq, data_append, List.drop_left]
    exact absurd (hbound kv hm hg hssw idx (by rw [hdrop]; exact pyint_pad3 idx))
      (lt_irrefl idx)

/-! ## Claims -/

/-- C1: `check_for_matching_attrs(h5_obj, new_parms)` returns `True` iff
every key of `new_parms` whose value is not `None` names an existing
attribute of `h5_obj` whose stored value matches the new one
(`attrsMatchSpec`); keys with a `None` value are skipped and never cause a
mismatch.  The per-key rule `valMatch` compares same-size numeric arrays
element-wise with `np.allclose`'s floating tolerance, arrays of different
sizes never match, and scalars compare by equality. -/
theorem check_for_matching_attrs_correct :
    (∀ attrs parms,
        check_for_matching_attrs attrs (Option.some parms) = true ↔
          attrsMatchSpec attrs parms)
    ∧ (∀ a b : List ℚ, a.length ≠ b.length →
        valMatch (PVal.numArr a) (PVal.numArr b) = false)
    ∧ (∀ a b : List ℚ, a.length = b.length →
        valMatch (PVal.numArr a) (PVal.numArr b) = allclose a b)
    ∧ (∀ q q' : ℚ, valMatch (PVal.num q) (PVal.num q') = true ↔ q' = q) := by
  refine ⟨fun attrs parms => cfmaLoop_eq_spec attrs parms, ?_, ?_, ?_⟩
  · intro a b h
    simp [valMatch, h]
  · intro a b h
    simp [valMatch, h]
  · intro q q'
    simp [valMatch]

theorem check_for_matching_attrs_correct_witness :
    attrsMatchSpec
      [("algorithm", PVal.str "find_all_peaks"), ("w", PVal.strArr ["a"])]
      [("algorithm", PVal.str "find_all_peaks"), ("skip", PVal.null),
        ("w", PVal.strArr ["a"])]
    ∧ valMatch (PVal.numArr [1]) (PVal.numArr [1, 2]) = false
    ∧ valMatch (PVal.numArr [1, 2]) (PVal.numArr [1, 2]) =
        allclose [1, 2] [1, 2] :=
  ⟨(check_for_matching_attrs_correct.1 _ _).mp (by decide),
   check_for_matching_attrs_correct.2.1 _ _ (by decide),
   check_for_matching_attrs_correct.2.2.1 _ _ (by decide)⟩

/-- C2: `check_for_old` returns exactly the candidates produced by
`find_results_groups` whose stored attributes match `new_parms` under
`check_for_matching_attrs`, in discovery order; with a `target_dset` the
member dataset of that name is compared instead and candidates lacking it
are skipped. -/
theorem check_for_old_returns_matching_candidates :
    ∀ (h5_base : MainDataset) (tool_name : String) (new_parms : Option Attrs)
      (target_dset : Option String),
      check_for_old h5_base tool_name new_parms target_dset =
        (find_results_groups h5_base tool_name).filter
          (oldCandidateMatches (new_parms.getD []) target_dset) :=
  fun _ _ _ target => cfoLoop_eq_filter _ target _

theorem check_for_old_returns_matching_candidates_witness :
    check_for_old
      { name := "/Raw",
        parent := [("Raw", H5Obj.dset [2, 2] "f32" []),
                   ("Raw-Fit_000", H5Obj.grp [("p", PVal.num 3)] []),
                   ("Raw-Fit_001", H5Obj.grp [("p", PVal.num 4)] [])] }
      "Fit" (Option.some [("p", PVal.num 3)]) Option.none =
      (find_results_groups
        { name := "/Raw",
          parent := [("Raw", H5Obj.dset [2, 2] "f32" []),
                     ("Raw-Fit_000", H5Obj.grp [("p", PVal.num 3)] []),
                     ("Raw-Fit_001", H5Obj.grp [("p", PVal.num 4)] [])] }
        "Fit").filter
        (oldCandidateMatches [("p", PVal.num 3)] Option.none) :=
  check_for_old_returns_matching_candidates _ _ _ _

/-- C3: `find_results_groups(h5_main, tool_name)` returns exactly the
members of `h5_main`'s parent that are groups and whose key contains both
the last path component of `h5_main.name` and `tool_name` as substrings,
in the parent's stable key-iteration order (h5py keys are unique, hence
the `Nodup` hypothesis). -/
theorem find_results_groups_exact :
    ∀ (h5_main : MainDataset) (tool_name : String),
      (h5_main.parent.map Prod.fst).Nodup →
      find_results_groups h5_main tool_name =
        h5_main.parent.filter fun kv =>
          strContainsSub kv.1 (lastComponent h5_main.name) &&
          strContainsSub kv.1 tool_name && kv.2.isGroup := by
  intro m tool hnd
  exact frgLoop_eq_filter m.parent _ tool m.parent
    (lookup_self_of_nodup m.parent hnd)

theorem find_results_groups_exact_witness :
    find_results_groups
      { name := "/M/Raw",
        parent := [("Raw", H5Obj.dset [2, 2] "f32" []),
                   ("Raw-Fit_000", H5Obj.grp [] []),
                   ("Other-Fit_000", H5Obj.grp [] []),
                   ("Raw-Fit_001", H5Obj.dset [1] "f32" [])] } "Fit" =
      (({ name := "/M/Raw",
          parent := [("Raw", H5Obj.dset [2, 2] "f32" []),
                     ("Raw-Fit_000", H5Obj.grp [] []),
                     ("Other-Fit_000", H5Obj.grp [] []),
                     ("Raw-Fit_001", H5Obj.dset [1] "f32" [])] } :
            MainDataset).parent.filter fun kv =>
        strContainsSub kv.1
            (lastComponent (String.mk ['/', 'M', '/', 'R', 'a', 'w'])) &&
          strContainsSub kv.1 "Fit" && kv.2.isGroup) :=
  find_results_groups_exact _ _ (by decide)

/-- C4: `PeakFinder.test(pixel_ind)` reads exactly the one row at
`pixel_ind` of `h5_main`, returns `_map_function` applied to it, and
leaves the state — every sink and dataset — unchanged. -/
theorem test_applies_map_function_without_writes :
    (∀ (find_all_peaks : List ℚ → List ℚ → Nat → List Nat)
        (st : ProcessState) (pixel_ind : Nat) (spectra : List ℚ),
        st.h5_main.get? pixel_ind = Option.some spectra →
        PeakFinder.test find_all_peaks st pixel_ind =
          (map_function find_all_peaks spectra, st))
    ∧ (∀ (find_all_peaks : List ℚ → List ℚ → Nat → List Nat)
        (st : ProcessState) (pixel_ind : Nat),
        (PeakFinder.test find_all_peaks st pixel_ind).2 = st) := by
  constructor
  · intro f st i spectra h
    simp only [PeakFinder.test]
    rw [h]
  · intro f st i
    simp only [PeakFinder.test]
    cases st.h5_main.get? i <;> rfl

theorem test_applies_map_function_without_writes_witness :
    PeakFinder.test (fun _ _ _ => []) ⟨[[3, -5, 2]], []⟩ 0 =
      (map_function (fun _ _ _ => []) [3, -5, 2], ⟨[[3, -5, 2]], []⟩)
    ∧ (PeakFinder.test (fun _ _ _ => []) ⟨[[3, -5, 2]], []⟩ 7).2 =
        (⟨[[3, -5, 2]], []⟩ : ProcessState) :=
  ⟨test_applies_map_function_without_writes.1 _ _ _ _ rfl,
   test_applies_map_function_without_writes.2 _ _ _⟩

/-- C6 counterexample: with `skip_refs=False`, a `TypeError` raised by
`copy_region_refs` inside `copy_attributes` (lines 276-282) is caught and
discarded — the call returns normally instead of propagating the error,
so the claim that every exception raised inside the helper propagates to
its caller is false. -/
theorem copy_attributes_swallows_typeerror :
    copy_attributes [("a", PVal.num 1)] [] false
        (Except.error PyErr.typeError) =
      Except.ok [("a", PVal.num 1)]
    ∧ copy_attributes [("a", PVal.num 1)] [] false
        (Except.error PyErr.typeError) ≠
      Except.error PyErr.typeError :=
  ⟨rfl, fun h => Except.noConfusion h⟩

/-- C6 amended: every exception raised inside the helper operations
propagates to the caller, except that `copy_attributes` with
`skip_refs=False` catches a `TypeError` raised by `copy_region_refs` and
reports it without propagating; with `skip_refs=True` the call is not
made at all and the copy succeeds. -/
theorem copy_attributes_propagation :
    (∀ (src dst : Attrs) (e : PyErr), e ≠ PyErr.typeError →
        copy_attributes src dst false (Except.error e) = Except.error e)
    ∧ (∀ (src dst : Attrs),
        copy_attributes src dst false (Except.error PyErr.typeError) =
          Except.ok (copyAttrsLoop src dst))
    ∧ (∀ (src dst : Attrs) (r : Except PyErr Unit),
        copy_attributes src dst true r = Except.ok (copyAttrsLoop src dst)) := by
  refine ⟨?_, fun _ _ => rfl, fun _ _ _ => rfl⟩
  intro src dst e he
  cases e with
  | typeError => exact absurd rfl he
  | keyError => rfl
  | valueError => rfl

theorem copy_attributes_propagation_witness :
    copy_attributes [("a", PVal.num 1)] [] false
        (Except.error PyErr.keyError) =
      Except.error PyErr.keyError :=
  copy_attributes_propagation.1 _ _ _ (fun h => PyErr.noConfusion h)

/-- C7: `_map_function` is a pure function of its arguments only: it takes
no engine or object state (it is a `@staticmethod`), so two invocations on
equal input spectra return equal results, and `test`'s returned value
depends only on the spectra read, not on any other part of the engine
state. -/
theorem map_function_pure_and_deterministic :
    (∀ (find_all_peaks : List ℚ → List ℚ → Nat → List Nat) (s t : List ℚ),
        s = t →
        map_function find_all_peaks s = map_function find_all_peaks t)
    ∧ (∀ (find_all_peaks : List ℚ → List ℚ → Nat → List Nat)
        (st1 st2 : ProcessState) (i1 i2 : Nat),
        st1.h5_main.get? i1 = st2.h5_main.get? i2 →
        (PeakFinder.test find_all_peaks st1 i1).1 =
          (PeakFinder.test find_all_peaks st2 i2).1) := by
  constructor
  · intro f s t h
    rw [h]
  · intro f st1 st2 i1 i2 h
    simp only [PeakFinder.test]
    rw [h]
    cases st2.h5_main.get? i2 <;> rfl

theorem map_function_pure_and_deterministic_witness :
    (PeakFinder.test (fun _ _ _ => []) ⟨[[1, 2]], []⟩ 0).1 =
      (PeakFinder.test (fun _ _ _ => [])
        ⟨[[9], [1, 2]], [("junk", H5Obj.grp [] [])]⟩ 1).1 :=
  map_function_pure_and_deterministic.2 _ _ _ _ _ rfl

/-- C8: `check_for_matching_attrs` with `new_parms=None`, with an empty
dictionary, and with a dictionary all of whose values are `None` returns
`True` (the empty conjunction of tests); consequently `check_for_old`
with `new_parms=None` or an empty dictionary returns every candidate
results group for the tool. -/
theorem empty_parms_match_everything :
    (∀ attrs, check_for_matching_attrs attrs Option.none = true)
    ∧ (∀ attrs, check_for_matching_attrs attrs (Option.some []) = true)
    ∧ (∀ attrs parms, (∀ kv ∈ parms, kv.2 = PVal.null) →
        check_for_matching_attrs attrs (Option.some parms) = true)
    ∧ (∀ (m : MainDataset) (tool : String),
        check_for_old m tool Option.none Option.none =
          find_results_groups m tool)
    ∧ (∀ (m : MainDataset) (tool : String),
        check_for_old m tool (Option.some []) Option.none =
          find_results_groups m tool) := by
  refine ⟨fun _ => rfl, fun _ => rfl, ?_, ?_, ?_⟩
  · intro attrs parms h
    induction parms with
    | nil => rfl
    | cons kv rest ih =>
      have hv : kv.2 = PVal.null := h kv (List.mem_cons_self _ _)
      obtain ⟨k, v⟩ := kv
      subst hv
      simpa [check_for_matching_attrs, cfmaLoop] using
        ih (fun kv hm => h kv (List.mem_cons_of_mem _ hm))
  · intro m tool
    exact cfoLoop_empty_parms_id _ rfl _
  · intro m tool
    exact cfoLoop_empty_parms_id _ rfl _

theorem empty_parms_match_everything_witness :
    check_for_matching_attrs [("x", PVal.num 5)]
        (Option.some [("a", PVal.null), ("b", PVal.null)]) = true
    ∧ check_for_old
        { name := "/Raw",
          parent := [("Raw", H5Obj.dset [2, 2] "f32" []),
                     ("Raw-Fit_000", H5Obj.grp [("p", PVal.num 3)] [])] }
        "Fit" Option.none Option.none =
      find_results_groups
        { name := "/Raw",
          parent := [("Raw", H5Obj.dset [2, 2] "f32" []),
                     ("Raw-Fit_000", H5Obj.grp [("p", PVal.num 3)] [])] }
        "Fit" :=
  ⟨empty_parms_match_everything.2.2.1 _ _ (by decide),
   empty_parms_match_everything.2.2.2.1 _ _⟩

/-- C5 counterexample: `create_empty_dataset` does not raise when an
identically named member already exists — with a dataset of matching
shape and dtype in place it silently reuses it (returning normally),
contradicting the claim that the creation operation raises rather than
reusing the existing object. -/
theorem create_empty_dataset_reuses_existing :
    (([("Results", H5Obj.dset [2, 3] "f32" [])] :
        List (String × H5Obj)).lookup "Results").isSome = true
    ∧ create_empty_dataset [2, 3] "f32" "Results"
        [("Results", H5Obj.dset [2, 3] "f32" [])] =
      Except.ok CreateOutcome.reusedExisting :=
  ⟨rfl, rfl⟩

/-- C5 amended: when a member named like the requested dataset already
exists, `create_empty_dataset` raises (`KeyError`) only when that member
is not a dataset; an existing dataset is silently reused when its shape
and dtype match and deleted-and-recreated otherwise.
`write_ind_val_dsets`, by contrast, does raise (`KeyError`) when an
identically named `Indices`/`Values` dataset already exists. -/
theorem result_dataset_creation_existing_name :
    (∀ (src_shape : List Nat) (dtype dset_name : String)
        (group : List (String × H5Obj)) (sh : List Nat) (dt : String)
        (a : Attrs),
        (pystrip dset_name).data.length ≠ 0 →
        group.lookup (sanitizeDashes (pystrip dset_name)) =
          Option.some (H5Obj.dset sh dt a) →
        create_empty_dataset src_shape dtype dset_name group =
          Except.ok (if sh ≠ src_shape ∨ dt ≠ dtype then
            CreateOutcome.deletedAndRecreated
          else CreateOutcome.reusedExisting))
    ∧ (∀ (src_shape : List Nat) (dtype dset_name : String)
        (group : List (String × H5Obj)) (ga : Attrs)
        (gm : List (String × H5Obj)),
        (pystrip dset_name).data.length ≠ 0 →
        group.lookup (sanitizeDashes (pystrip dset_name)) =
          Option.some (H5Obj.grp ga gm) →
        create_empty_dataset src_shape dtype dset_name group =
          Except.error PyErr.keyError)
    ∧ (∀ (members : List (String × H5Obj)) (is_spectral : Bool)
        (base_name : Option String),
        ((members.map Prod.fst).contains
            (ivBase is_spectral base_name ++ "Indices")
          || (members.map Prod.fst).contains
            (ivBase is_spectral base_name ++ "Values")) = true →
        write_ind_val_dsets_precheck members is_spectral base_name =
          Except.error PyErr.keyError) := by
  refine ⟨?_, ?_, ?_⟩
  · intro ss dtype name group sh dt a hne hlk
    simp only [create_empty_dataset, if_neg hne, hlk]
    by_cases h : sh ≠ ss ∨ dt ≠ dtype <;> simp [h]
  · intro ss dtype name group ga gm hne hlk
    simp only [create_empty_dataset, if_neg hne, hlk]
  · intro members is_spectral base_name h
    simp only [write_ind_val_dsets_precheck, h, if_pos]

theorem result_dataset_creation_existing_name_witness :
    create_empty_dataset [9] "f32" "Results"
        [("Results", H5Obj.dset [2, 3] "f32" [])] =
      Except.ok CreateOutcome.deletedAndRecreated
    ∧ create_empty_dataset [2, 3] "f32" "Fit"
        [("Fit", H5Obj.grp [] [])] = Except.error PyErr.keyError
    ∧ write_ind_val_dsets_precheck
        [("Spectroscopic_Indices", H5Obj.dset [1] "u32" [])] true
        Option.none = Except.error PyErr.keyError := by
  refine ⟨?_, ?_, ?_⟩
  · have h := result_dataset_creation_existing_name.1 [9] "f32" "Results"
      [("Results", H5Obj.dset [2, 3] "f32" [])] [2, 3] "f32" []
      (by decide) rfl
    simpa using h
  · exact result_dataset_creation_existing_name.2.1 [2, 3] "f32" "Fit"
      [("Fit", H5Obj.grp [] [])] [] [] (by decide) rfl
  · exact result_dataset_creation_existing_name.2.2
      [("Spectroscopic_Indices", H5Obj.dset [1] "u32" [])] true
      Option.none (by decide)

/-- C9: round-trip between result-group creation and source recovery.
When the dataset's own name contains no `'-'`, the dataset is a member of
its parent under that name, the parent's keys are unique, the tool name is
non-blank after stripping, the existing result groups with the new
base-name prefix have numeric suffixes (so that `assign_group_index`
succeeds), and no non-group member is named like a result group of this
base name (so that `create_group` at line 632 does not collide),
`create_results_group` returns a group named
`'<dataset name>-<sanitized tool name>_<index>'` containing exactly one
`'-'` (the tool name's dashes having been replaced by `'_'`), and
`get_source_dataset` applied to that group recovers the original
dataset. -/
theorem create_results_group_roundtrip :
    ∀ (m : MainDataset) (tool_name : String) (sh : List Nat) (dt : String)
      (a : Attrs),
      '-' ∉ (lastComponent m.name).data →
      m.parent.lookup (lastComponent m.name) =
        Option.some (H5Obj.dset sh dt a) →
      (m.parent.map Prod.fst).Nodup →
      (pystrip tool_name).data ≠ [] →
      (∀ kv ∈ m.parent, kv.2.isGroup = true →
          strStartsWith kv.1
            (lastComponent m.name ++ "-" ++
              sanitizeDashes (pystrip tool_name) ++ "_") = true →
          kv.1.data.drop
              (lastComponent m.name ++ "-" ++
                sanitizeDashes (pystrip tool_name) ++ "_").data.length ≠ [] ∧
            (kv.1.data.drop
                (lastComponent m.name ++ "-" ++
                  sanitizeDashes (pystrip tool_name) ++ "_").data.length).all
              Char.isDigit = true) →
      (∀ kv ∈ m.parent, kv.2.isGroup = false →
          strStartsWith kv.1
            (lastComponent m.name ++ "-" ++
              sanitizeDashes (pystrip tool_name) ++ "_") = true →
          ¬ (kv.1.data.drop
              (lastComponent m.name ++ "-" ++
                sanitizeDashes (pystrip tool_name) ++ "_").data.length ≠ [] ∧
            (kv.1.data.drop
                (lastComponent m.name ++ "-" ++
                  sanitizeDashes (pystrip tool_name) ++ "_").data.length).all
              Char.isDigit = true)) →
      ∃ (k : Nat) (gname : String) (parent' : List (String × H5Obj)),
        create_results_group m tool_name = Except.ok (gname, parent') ∧
        gname = lastComponent m.name ++ "-" ++
          sanitizeDashes (pystrip tool_name) ++ "_" ++ pad3 k ∧
        gname.data.count '-' = 1 ∧
        get_source_dataset parent' gname =
          Except.ok (H5Obj.dset sh dt a) := by
  intro m tool sh dt a hdash hsrc hnodup htool hdig hnogrp
  set dn := lastComponent m.name with hdn
  set tool' := sanitizeDashes (pystrip tool) with htooldef
  set base := dn ++ "-" ++ tool' ++ "_" with hbase
  have hub : underscored base = base :=
    underscored_of_endsWith base
      (by rw [hbase]; exact endsWith_underscore_append _)
  have hbase_ne : base ≠ "" := by
    intro h
    have hd : base.data = [] := (string_eq_empty_iff base).mp h
    rw [hbase, data_append] at hd
    exact absurd (List.append_eq_nil.mp hd).2 (by decide)
  have hdig' : ∀ kv ∈ m.parent, kv.2.isGroup = true →
      strStartsWith kv.1 (underscored base) = true →
      kv.1.data.drop (underscored base).data.length ≠ [] ∧
        (kv.1.data.drop (underscored base).data.length).all
          Char.isDigit = true := by
    rw [hub]; exact hdig
  obtain ⟨idx, hassign, -, -, hfresh⟩ :=
    assign_group_index_spec m.parent base hbase_ne hnodup hdig'
  rw [hub] at hassign
  rw [hub] at hfresh
  have hlen1 : ¬ (pystrip tool).data.length < 1 := by
    intro h
    exact htool (List.eq_nil_of_length_eq_zero (by omega))
  have hnotmem : (base ++ pad3 idx) ∉ m.parent.map Prod.fst := by
    intro hmem
    obtain ⟨kv, hkv, hname⟩ := List.mem_map.mp hmem
    have hssw : strStartsWith kv.1 base = true := by
      rw [hname, strStartsWith, decide_eq_true_eq, data_append]
      exact List.prefix_append _ _
    have hdrop : kv.1.data.drop base.data.length = (pad3 idx).data := by
      rw [hname, data_append base (pad3 idx)]
      exact List.drop_left _ _
    by_cases hg : kv.2.isGroup = true
    · exact hfresh kv hkv hg hname
    · rw [Bool.not_eq_true] at hg
      refine hnogrp kv hkv hg hssw ⟨?_, ?_⟩
      · rw [hdrop]; exact pad3_ne_nil idx
      · rw [hdrop]; exact List.all_eq_true.mpr (pad3_digits idx)
  have hcont : ((m.parent.map Prod.fst).contains (base ++ pad3 idx)) = false := by
    rw [Bool.eq_false_iff]
    intro hc
    exact hnotmem (List.mem_of_elem_eq_true hc)
  have hcrg : create_results_group m tool =
      Except.ok (base ++ pad3 idx,
        m.parent ++ [(base ++ pad3 idx,
          H5Obj.grp [("tool", PVal.str tool'),
            ("num_source_dsets", PVal.num 1)] [])]) := by
    simp only [create_results_group]
    rw [if_neg hlen1, ← htooldef, ← hdn, ← hbase, hassign]
    simp only [hcont, Bool.false_eq_true, if_false]
  have htool_nodash : '-' ∉ tool'.data := by
    rw [htooldef]; exact sanitize_no_dash _
  have hb : (base ++ pad3 idx).data =
      dn.data ++ '-' :: (tool'.data ++ '_' :: (pad3 idx).data) := by
    rw [data_append, hbase, data_append, data_append, data_append,
      show ("-" : String).data = ['-'] from rfl,
      show ("_" : String).data = ['_'] from rfl]
    simp [List.append_assoc]
  refine ⟨idx, base ++ pad3 idx, _, hcrg, ?_, ?_, ?_⟩
  · rw [hbase]
  · rw [hb]
    simp [List.count_append, List.count_cons,
      List.count_eq_zero.mpr hdash, List.count_eq_zero.mpr htool_nodash,
      List.count_eq_zero.mpr (pad3_no_dash idx)]
  · have hbmem : '-' ∉ (tool'.data ++ '_' :: (pad3 idx).data) := by
      intro h
      rcases List.mem_append.mp h with h1 | h2
      · exact htool_nodash h1
      · rcases List.mem_cons.mp h2 with h3 | h4
        · exact absurd h3 (by decide)
        · exact pad3_no_dash idx h4
    have hsplit : splitOnChar '-' (base ++ pad3 idx).data =
        [dn.data, tool'.data ++ '_' :: (pad3 idx).data] := by
      rw [hb]
      exact splitOnChar_append '-' _ _ hdash hbmem
    have hl2 := lookup_append_some m.parent
      [(base ++ pad3 idx,
        H5Obj.grp [("tool", PVal.str tool'),
          ("num_source_dsets", PVal.num 1)] [])]
      dn (H5Obj.dset sh dt a) hsrc
    simp only [get_source_dataset, hsplit]
    rw [if_neg (by simp)]
    simp only [List.headD_cons, mk_data, hl2]

theorem create_results_group_roundtrip_witness :
    ∃ (k : Nat) (gname : String) (parent' : List (String × H5Obj)),
      create_results_group
        { name := "/Raw", parent := [("Raw", H5Obj.dset [2, 2] "f32" [])] }
        "Fit" = Except.ok (gname, parent') ∧
      gname =
        lastComponent (String.mk ['/', 'R', 'a', 'w']) ++ "-" ++
          sanitizeDashes (pystrip "Fit") ++ "_" ++ pad3 k ∧
      gname.data.count '-' = 1 ∧
      get_source_dataset parent' gname =
        Except.ok (H5Obj.dset [2, 2] "f32" []) :=
  create_results_group_roundtrip
    { name := "/Raw", parent := [("Raw", H5Obj.dset [2, 2] "f32" [])] }
    "Fit" [2, 2] "f32" [] (by decide) rfl (by decide) (by decide)
    (by decide) (by decide)

/-- C10 counterexample: with an existing group `G_1000` (whose suffix is
purely numeric, as the claim's hypothesis demands), `assign_group_index`
returns `G_1001`, whose remaining suffix has four digits — not the
three-digit index the claim describes. -/
theorem assign_group_index_not_three_digits :
    assign_group_index [("G_1000", H5Obj.grp [] [])] "G" =
      Except.ok "G_1001"
    ∧ ("G_1000".data.drop "G_".data.length ≠ [] ∧
        ("G_1000".data.drop "G_".data.length).all Char.isDigit = true)
    ∧ ("G_1001".data.drop "G_".data.length).length ≠ 3 :=
  ⟨rfl, by decide, by decide⟩

/-- C10 amended: for every parent group with unique member keys and
non-empty base name such that every member group whose name starts with
the underscore-terminated base name has a purely numeric (non-empty,
all-digit) remaining suffix, `assign_group_index` returns the base name
followed by the decimal successor of the largest existing index,
zero-padded to at least three digits (`000` when no such group exists) —
an index strictly greater than every existing one, hence a name under
which no group yet exists in the parent. -/
theorem assign_group_index_fresh :
    ∀ (members : List (String × H5Obj)) (base_name : String),
      base_name ≠ "" →
      (members.map Prod.fst).Nodup →
      (∀ kv ∈ members, kv.2.isGroup = true →
          strStartsWith kv.1 (underscored base_name) = true →
          kv.1.data.drop (underscored base_name).data.length ≠ [] ∧
            (kv.1.data.drop
                (underscored base_name).data.length).all Char.isDigit = true) →
      ∃ idx,
        assign_group_index members base_name =
          Except.ok (underscored base_name ++ pad3 idx) ∧
        (∀ kv ∈ members, kv.2.isGroup = true →
            strStartsWith kv.1 (underscored base_name) = true →
            ∀ k, pyint (kv.1.data.drop (underscored base_name).data.length) =
              Option.some k → k < idx) ∧
        ((∀ kv ∈ members, kv.2.isGroup = true →
            strStartsWith kv.1 (underscored base_name) = false) → idx = 0) ∧
        (∀ kv ∈ members, kv.2.isGroup = true →
            kv.1 ≠ underscored base_name ++ pad3 idx) :=
  assign_group_index_spec

theorem assign_group_index_fresh_witness :
    ∃ idx,
      assign_group_index
        [("G_000", H5Obj.grp [] []), ("G_007", H5Obj.grp [] []),
          ("Other", H5Obj.dset [1] "f32" [])] "G" =
        Except.ok (underscored "G" ++ pad3 idx) ∧
      (∀ kv ∈ [("G_000", H5Obj.grp [] []), ("G_007", H5Obj.grp [] []),
          ("Other", H5Obj.dset [1] "f32" [])], kv.2.isGroup = true →
          strStartsWith kv.1 (underscored "G") = true →
          ∀ k, pyint (kv.1.data.drop (underscored "G").data.length) =
            Option.some k → k < idx) ∧
      ((∀ kv ∈ [("G_000", H5Obj.grp [] []), ("G_007", H5Obj.grp [] []),
          ("Other", H5Obj.dset [1] "f32" [])], kv.2.isGroup = true →
          strStartsWith kv.1 (underscored "G") = false) → idx = 0) ∧
      (∀ kv ∈ [("G_000", H5Obj.grp [] []), ("G_007", H5Obj.grp [] []),
          ("Other", H5Obj.dset [1] "f32" [])], kv.2.isGroup = true →
          kv.1 ≠ underscored "G" ++ pad3 idx) :=
  assign_group_index_fresh _ _ (by decide) (by decide) (by decide)

end PyUSID
